import Mathlib

/-!
Verification of the hierrorchy proc-macro crate (src/src/lib.rs).

The crate has two transforms:
- the attribute macro error_leaf, whose argument is parsed by MessageFormat::parse
  and which emits a Display impl (literal or format-macro body) and an empty
  std::error::Error impl for the annotated struct;
- the function-like macro error_node, whose body is parsed by ErrorNode::parse
  and which emits an enum, a Display impl, an std::error::Error impl (source),
  and one From impl per variant.

We embed (a) the two syn parsers as functions over a token model of the
proc-macro token stream, and (b) the runtime behaviour of the emitted code
as functions over a semantic domain of error values.
-/

/--
Token model of the proc-macro token streams the parsers consume.
One constructor per token kind the parsers distinguish: the keywords pub and
type, the puncts "<" ">" "," "=" "::" "!", identifiers, string literals and
delimited groups.  syn splits joint puncts when parsing single-char tokens
(so ">=" yields a ">" token followed by a "=" token), hence puncts are
modelled individually.
-/
inductive Tok where
  | kwPub
  | kwType
  | lt
  | gt
  | comma
  | eq
  | pathSep
  | bang
  | ident (s : String)
  | litStr (s : String)
  | group (inner : List Tok)

/--
Mirror of the parsed ErrorNode struct (lib.rs lines 227-232):
is_pub, node_name, variants (parsed as plain identifiers: the Rust field is
Vec of Ident), and the optional message prefix string literal (source field
name: message, then the word, underscore-joined; shortened here to msgPfx).
-/
structure ErrorNode where
  is_pub : Bool
  node_name : String
  variants : List String
  msgPfx : Option String
deriving DecidableEq, Repr

/--
The variant-list loop of ErrorNode::parse (lib.rs lines 244-257): while the
next token is not ">", parse one Ident as a variant, then consume a ","
if one is present (the comma is therefore an optional separator).  The ">"
itself is consumed when found.  Returns the variants and the remaining
tokens, or the syn error the loop would raise.
-/
def parseVariants : List Tok → Except String (List String × List Tok)
  | [] => Except.error "unexpected end of input"
  | Tok.gt :: rest => Except.ok ([], rest)
  | Tok.ident s :: Tok.comma :: rest =>
      match parseVariants rest with
      | Except.ok (vs, r) => Except.ok (s :: vs, r)
      | Except.error e => Except.error e
  | Tok.ident s :: rest =>
      match parseVariants rest with
      | Except.ok (vs, r) => Except.ok (s :: vs, r)
      | Except.error e => Except.error e
  | _ :: _ => Except.error "expected identifier"

/--
Embedding of the syn Parse impl for ErrorNode (lib.rs lines 234-277):
optional pub keyword, mandatory type keyword, node name identifier,
"<", the variant loop, then either end of input (no message prefix) or
"=" followed by a string literal.  Returns the node and the unconsumed
tail of the stream.
-/
def ErrorNode.parse (toks : List Tok) : Except String (ErrorNode × List Tok) :=
  let pubSplit : Bool × List Tok :=
    match toks with
    | Tok.kwPub :: r => (true, r)
    | _ => (false, toks)
  match pubSplit.2 with
  | Tok.kwType :: Tok.ident name :: Tok.lt :: r2 =>
      match parseVariants r2 with
      | Except.error e => Except.error e
      | Except.ok (vs, r3) =>
          match r3 with
          | [] =>
              Except.ok ({ is_pub := pubSplit.1, node_name := name,
                           variants := vs, msgPfx := none }, [])
          | Tok.eq :: Tok.litStr s :: r4 =>
              Except.ok ({ is_pub := pubSplit.1, node_name := name,
                           variants := vs, msgPfx := some s }, r4)
          | Tok.eq :: _ => Except.error "expected string literal"
          | _ => Except.error "expected equals sign"
  | _ => Except.error "expected type keyword"

/--
The error_node entry point's parsing step, parse_macro_input (lib.rs line
392): runs ErrorNode::parse and additionally requires that the whole token
stream was consumed.
-/
def error_node_parse (toks : List Tok) : Except String ErrorNode :=
  match ErrorNode.parse toks with
  | Except.error e => Except.error e
  | Except.ok (n, []) => Except.ok n
  | Except.ok (_, _ :: _) => Except.error "unexpected token"




/--
Mirror of the MessageFormat enum (lib.rs lines 144-147): either a string
literal or a macro invocation (syn Macro: a path, a bang and a delimited
token group).
-/
inductive MessageFormat where
  | Lit (s : String)
  | Format (path : List String) (body : List Tok)

/--
Embedding of syn Path parsing as used by Macro: one or more identifiers
separated by the path separator "::".
-/
def parsePath : List Tok → Except String (List String × List Tok)
  | Tok.ident s :: Tok.pathSep :: rest =>
      match parsePath rest with
      | Except.ok (p, r) => Except.ok (s :: p, r)
      | Except.error e => Except.error e
  | Tok.ident s :: rest => Except.ok ([s], rest)
  | _ => Except.error "expected path"

/--
Embedding of syn Macro parsing (used at lib.rs line 155): a path, a bang
token and a delimited token group holding the macro body.
-/
def parseMacroCall (toks : List Tok) :
    Except String ((List String × List Tok) × List Tok) :=
  match parsePath toks with
  | Except.error e => Except.error e
  | Except.ok (p, r) =>
      match r with
      | Tok.bang :: Tok.group body :: r2 => Except.ok ((p, body), r2)
      | _ => Except.error "expected macro invocation"

/--
True when the next token of the stream is a string literal: models
lookahead1().peek(LitStr) at lib.rs line 152.
-/
def beginsWithLitStr : List Tok → Bool
  | Tok.litStr _ :: _ => true
  | _ => false

/--
Embedding of the syn Parse impl for MessageFormat (lib.rs lines 149-158):
if the lookahead sees a string literal, parse it as the Lit form; otherwise
parse a Macro and wrap it as the Format form, propagating its error.
-/
def MessageFormat.parse (toks : List Tok) :
    Except String (MessageFormat × List Tok) :=
  match toks with
  | Tok.litStr s :: rest => Except.ok (MessageFormat.Lit s, rest)
  | other =>
      match parseMacroCall other with
      | Except.ok ((p, body), r) => Except.ok ((MessageFormat.Format p body), r)
      | Except.error e => Except.error e

/--
Mirror of format_variant_name (lib.rs lines 279-281): the synthetic
variant identifier for position number.
-/
def format_variant_name (number : Nat) : String := "Variant" ++ toString number

/--
Description of one match arm of the emitted source() body
(lib.rs lines 335-340): the arm for Self::Variant{variant_index}(err),
whose body is Some(err) when returns_some is true.  The emitter only ever
writes Some(err) bodies.
-/
structure MatchArm where
  variant_index : Nat
  variant_name : String
  returns_some : Bool
deriving DecidableEq, Repr

/--
Embedding of error_node_error_impl (lib.rs lines 332-355): the list of
match arms of the emitted std::error::Error::source implementation, one
per variant, built by enumerating the variant list; every arm returns
Some(err).
-/
def error_node_error_impl (variants : List String) : List MatchArm :=
  variants.enum.map (fun it =>
    { variant_index := it.1, variant_name := format_variant_name it.1,
      returns_some := true })

/--
Description of the emitted Display impl for a node, from
error_node_display_impl (lib.rs lines 307-330): head is the string spliced
before the colon (the message prefix literal's value when present, else the
node name), message_format the format string passed to write! (head
followed by a colon, a space and a placeholder), and expect_message the
argument of the expect call on self.source().
-/
structure NodeDisplayImpl where
  head : String
  message_format : String
  expect_message : String
deriving DecidableEq, Repr

/--
Embedding of error_node_display_impl (lib.rs lines 307-330); the match on
the optional message prefix is at lines 312-315.
-/
def error_node_display_impl (node_name : String) (p : Option String) :
    NodeDisplayImpl :=
  let head : String :=
    match p with
    | some l => l
    | none => node_name
  { head := head,
    message_format := head ++ ": \x7b\x7d",
    expect_message := node_name ++ " always has a source" }

/--
Description of one emitted From impl, from error_node_from_impls
(lib.rs lines 357-371): for the child type at position variant_index,
From::from(value) builds Self::Variant{variant_index}(value).
-/
structure FromImpl where
  for_node : String
  child_type : String
  variant_index : Nat
deriving DecidableEq, Repr

/--
Embedding of error_node_from_impls (lib.rs lines 357-371): one From impl
per enumerated variant.
-/
def error_node_from_impls (node_name : String) (variants : List String) :
    List FromImpl :=
  variants.enum.map (fun it =>
    { for_node := node_name, child_type := it.2, variant_index := it.1 })

/--
Runtime values of the generated error types.  A leaf instance carries the
literal message of its error_leaf declaration and its (opaque, never
inspected) field data; a node instance carries its declaration data (name,
optional message prefix, variant list), the discriminant of the held
variant and the held child value.
-/
inductive ErrVal where
  | leaf (msg : String) (fields : List Int)
  | node (node_name : String) (msgPfx : Option String)
      (variants : List String) (idx : Nat) (child : ErrVal)

/--
Executes the match emitted by error_node_error_impl on an instance whose
discriminant is idx holding child: the match selects the arm whose pattern
is the constructor Variant{idx}; that arm returns Some(err) binding err to
the held child.  The outer none means no arm matched, which Rust rules out
statically for any well-typed instance.
-/
def runSourceMatch (arms : List MatchArm) (idx : Nat) (child : ErrVal) :
    Option (Option ErrVal) :=
  match arms.find? (fun a => a.variant_index == idx) with
  | some arm => some (if arm.returns_some then some child else none)
  | none => none

/--
Runtime of the generated source()/cause chain accessor.  A leaf's Error
impl is empty (lib.rs lines 210-212), so the trait-default source applies
and yields none.  A node's source() runs the emitted match; Option.join
collapses the unreachable no-arm case to none.
-/
def ErrVal.source : ErrVal → Option ErrVal
  | ErrVal.leaf _ _ => none
  | ErrVal.node _ _ variants idx child =>
      (runSourceMatch (error_node_error_impl variants) idx child).join

/--
Runtime of the generated Display impls, as the rendered string; none
models a panic.  A leaf with a literal message writes exactly that string
(lib.rs lines 200-208), ignoring its fields.  A node writes the emitted
format string applied to self.source().expect(...) (lib.rs lines 318-327):
if the match produced Some(err) the output is the head of the display
impl, a colon, a space, and err rendered by its own Display; if the match
produced none (or no arm matched) the expect call panics.
-/
def ErrVal.render : ErrVal → Option String
  | ErrVal.leaf msg _ => some msg
  | ErrVal.node name p variants idx child =>
      match runSourceMatch (error_node_error_impl variants) idx child with
      | some (some _) =>
          Option.map
            (fun s => (error_node_display_impl name p).head ++ ": " ++ s)
            (ErrVal.render child)
      | some none => none
      | none => none

/--
Runtime of the From impl for position i of a node declaration
(lib.rs lines 362-368): from(value) is Self::Variant{i}(value), i.e. the
node instance holding value at discriminant i.
-/
def error_node_from (node_name : String) (p : Option String)
    (variants : List String) (i : Nat) (v : ErrVal) : ErrVal :=
  ErrVal.node node_name p variants i v

/--
One link of a chain of node declarations, used to state the recursive
rendering property: the declaration data plus the discriminant of the
variant held at this level.
-/
structure NodeWrap where
  node_name : String
  msgPfx : Option String
  variants : List String
  idx : Nat

/--
Wraps a value in a chain of nodes, outermost first.
-/
def wrapChain : List NodeWrap → ErrVal → ErrVal
  | [], v => v
  | w :: ws, v =>
      ErrVal.node w.node_name w.msgPfx w.variants w.idx (wrapChain ws v)

/--
The colon-joined chain of display heads down to a terminal message.
-/
def chainMsg : List NodeWrap → String → String
  | [], m => m
  | w :: ws, m =>
      (error_node_display_impl w.node_name w.msgPfx).head ++ ": " ++
        chainMsg ws m

lemma find_arm_enumFrom (vs : List String) (k idx : Nat) :
    ((vs.enumFrom k).map (fun it =>
        ({ variant_index := it.1, variant_name := format_variant_name it.1,
           returns_some := true } : MatchArm))).find?
        (fun a => a.variant_index == idx)
      = if k ≤ idx ∧ idx < k + vs.length then
          some { variant_index := idx, variant_name := format_variant_name idx,
                 returns_some := true }
        else none := by
  induction vs generalizing k with
  | nil =>
      simp only [List.enumFrom_nil, List.map_nil, List.find?_nil,
        List.length_nil]
      rw [if_neg]
      omega
  | cons v tl ih =>
      simp only [List.enumFrom_cons, List.map_cons, List.find?_cons,
        List.length_cons]
      by_cases hk : k = idx
      · subst hk
        simp only [beq_self_eq_true, cond_true]
        rw [if_pos]
        omega
      · have hbeq : (k == idx) = false := by
          simp [hk]
        simp only [hbeq, cond_false]
        rw [ih (k + 1)]
        by_cases h1 : k + 1 ≤ idx ∧ idx < k + 1 + tl.length
        · rw [if_pos h1, if_pos]
          omega
        · rw [if_neg h1, if_neg]
          omega

lemma runSourceMatch_error_impl (vs : List String) (idx : Nat) (c : ErrVal) :
    runSourceMatch (error_node_error_impl vs) idx c
      = if idx < vs.length then some (some c) else none := by
  unfold runSourceMatch error_node_error_impl
  rw [List.enum, find_arm_enumFrom]
  by_cases h : idx < vs.length
  · rw [if_pos (by omega : 0 ≤ idx ∧ idx < 0 + vs.length), if_pos h]
    simp
  · rw [if_neg (by omega), if_neg h]

lemma source_node_valid (name : String) (p : Option String)
    (vs : List String) (idx : Nat) (c : ErrVal) (h : idx < vs.length) :
    ErrVal.source (ErrVal.node name p vs idx c) = some c := by
  simp [ErrVal.source, runSourceMatch_error_impl, h]

lemma render_node_valid (name : String) (p : Option String)
    (vs : List String) (idx : Nat) (c : ErrVal) (h : idx < vs.length) :
    ErrVal.render (ErrVal.node name p vs idx c)
      = Option.map
          (fun s => (error_node_display_impl name p).head ++ ": " ++ s)
          (ErrVal.render c) := by
  rw [ErrVal.render, runSourceMatch_error_impl, if_pos h]

lemma beginsWithLitStr_true_shape (toks : List Tok)
    (hb : beginsWithLitStr toks = true) :
    ∃ s rest, toks = Tok.litStr s :: rest := by
  cases toks with
  | nil => exact absurd hb (by simp [beginsWithLitStr])
  | cons h t =>
      cases h <;> first
        | exact ⟨_, t, rfl⟩
        | exact absurd hb (by simp [beginsWithLitStr])

lemma MessageFormat_parse_not_lit (toks : List Tok)
    (hb : beginsWithLitStr toks = false) :
    MessageFormat.parse toks =
      match parseMacroCall toks with
      | Except.ok ((p, body), r) =>
          Except.ok ((MessageFormat.Format p body), r)
      | Except.error e => Except.error e := by
  cases toks with
  | nil => rfl
  | cons h t =>
      cases h <;> first
        | rfl
        | exact absurd hb (by simp [beginsWithLitStr])

/--
C1: for every node instance, the emitted Display impl renders the message
prefix (or, absent one, the node name) followed by a colon, a space and
the rendering of the held child; recursively, a chain of nodes around a
leaf renders to the colon-joined chain of heads down to the leaf message.
-/
theorem C1_node_render_chain :
    (∀ (name : String) (p : Option String) (vs : List String) (idx : Nat)
        (c : ErrVal) (s : String),
        idx < vs.length → ErrVal.render c = some s →
        ErrVal.render (ErrVal.node name p vs idx c)
          = some ((error_node_display_impl name p).head ++ ": " ++ s)) ∧
    (∀ (L : List NodeWrap) (m : String) (flds : List Int),
        (∀ w ∈ L, w.idx < w.variants.length) →
        ErrVal.render (wrapChain L (ErrVal.leaf m flds))
          = some (chainMsg L m)) := by
  constructor
  · intro name p vs idx c s h hs
    rw [render_node_valid name p vs idx c h, hs]
    rfl
  · intro L m flds
    induction L with
    | nil => intro _; rfl
    | cons w ws ih =>
        intro hv
        have hw : w.idx < w.variants.length := hv w (by simp)
        have hrest : ∀ x ∈ ws, x.idx < x.variants.length := by
          intro x hx
          exact hv x (by simp [hx])
        show ErrVal.render
            (ErrVal.node w.node_name w.msgPfx w.variants w.idx
              (wrapChain ws (ErrVal.leaf m flds)))
          = some (chainMsg (w :: ws) m)
        rw [render_node_valid _ _ _ _ _ hw, ih hrest]
        rfl

/--
C1 witness: a node named N with no prefix and one variant, holding a leaf
whose literal message is m, renders to N, a colon, a space and m.
-/
theorem C1_node_render_chain_witness :
    ErrVal.render (ErrVal.node "N" none ["A"] 0 (ErrVal.leaf "m" []))
      = some ((error_node_display_impl "N" none).head ++ ": " ++ "m") :=
  C1_node_render_chain.1 "N" none ["A"] 0 (ErrVal.leaf "m" []) "m"
    (by decide) rfl

/--
C2: converting a child value into a node through the From impl of variant
i and then asking the node for its source yields exactly that child value.
-/
theorem C2_from_then_source :
    ∀ (name : String) (p : Option String) (vs : List String) (i : Nat)
      (v : ErrVal), i < vs.length →
      ErrVal.source (error_node_from name p vs i v) = some v := by
  intro name p vs i v h
  exact source_node_valid name p vs i v h

/--
C2 witness: converting a leaf into a one-variant node and asking for the
source gives back the leaf.
-/
theorem C2_from_then_source_witness :
    ErrVal.source (error_node_from "N" none ["A"] 0 (ErrVal.leaf "x" []))
      = some (ErrVal.leaf "x" []) :=
  C2_from_then_source "N" none ["A"] 0 (ErrVal.leaf "x" []) (by decide)

/--
C5: a leaf declared with a literal message renders exactly that message,
whatever its field values are.
-/
theorem C5_leaf_literal_render :
    ∀ (m : String) (flds : List Int),
      ErrVal.render (ErrVal.leaf m flds) = some m :=
  fun _ _ => rfl

/--
C6: a leaf reports no underlying cause, unconditionally: the emitted Error
impl is empty, so the trait-default source applies.
-/
theorem C6_leaf_source_none :
    ∀ (m : String) (flds : List Int),
      ErrVal.source (ErrVal.leaf m flds) = none :=
  fun _ _ => rfl

/--
C3 counterexample: the claim says the parser rejects the token stream of
"type Foo, then an angle bracket, A, B and the closing bracket" (missing
comma between the two type references); in fact the parser accepts it,
silently producing a node model with variants A and B, because the
variant loop only consumes a comma when one is present.
-/
theorem C3_missing_comma_accepted :
    error_node_parse
      [Tok.kwType, Tok.ident "Foo", Tok.lt, Tok.ident "A", Tok.ident "B",
       Tok.gt]
      = Except.ok { is_pub := false, node_name := "Foo",
                    variants := ["A", "B"], msgPfx := none } := rfl

/--
C3 amended: the parser rejects the unquoted message prefix input (the
token stream of "type Foo, angle-bracketed A, equals, bare identifier
custom") with a parse diagnostic and never produces a node model for it;
the missing-comma input, however, is accepted and parses to the node
model with variants A and B.
-/
theorem C3_amended_rejection :
    error_node_parse
      [Tok.kwType, Tok.ident "Foo", Tok.lt, Tok.ident "A", Tok.gt, Tok.eq,
       Tok.ident "custom"]
      = Except.error "expected string literal" ∧
    error_node_parse
      [Tok.kwType, Tok.ident "Foo", Tok.lt, Tok.ident "A", Tok.ident "B",
       Tok.gt]
      = Except.ok { is_pub := false, node_name := "Foo",
                    variants := ["A", "B"], msgPfx := none } :=
  ⟨rfl, rfl⟩

/--
C4: the crate's own integration test declares a node whose first variant
is the qualified path io, separator, Error; ErrorNode::parse parses each
variant as a bare identifier, so on that input it stops at the path
separator with an expected-identifier diagnostic instead of accepting the
qualified type reference.
-/
theorem C4_qualified_reference_rejected :
    error_node_parse
      [Tok.kwType, Tok.ident "PathErrorNode", Tok.lt, Tok.ident "io",
       Tok.pathSep, Tok.ident "Error", Tok.comma, Tok.ident "ErrorChild1",
       Tok.gt, Tok.eq, Tok.litStr "path error"]
      = Except.error "expected identifier" := rfl

/--
C7: the token stream of "pub type Foo, angle-bracketed A comma B with a
trailing comma" parses to a public node named Foo with variants A and B
and no message prefix; the token stream of "type Foo, angle-bracketed A,
equals, the string literal custom" parses to a default-visibility node
named Foo with variant A and message prefix custom.
-/
theorem C7_grammar_acceptance :
    error_node_parse
      [Tok.kwPub, Tok.kwType, Tok.ident "Foo", Tok.lt, Tok.ident "A",
       Tok.comma, Tok.ident "B", Tok.comma, Tok.gt]
      = Except.ok { is_pub := true, node_name := "Foo",
                    variants := ["A", "B"], msgPfx := none } ∧
    error_node_parse
      [Tok.kwType, Tok.ident "Foo", Tok.lt, Tok.ident "A", Tok.gt, Tok.eq,
       Tok.litStr "custom"]
      = Except.ok { is_pub := false, node_name := "Foo",
                    variants := ["A"], msgPfx := some "custom" } :=
  ⟨rfl, rfl⟩

/--
C8: MessageFormat::parse selects exactly one form by the input's surface
shape: an input beginning with a string literal parses to the Lit form;
any other input parses to the Format form exactly when it parses as a
macro call; and when it is neither shape the parse fails with the macro
parser's error, so no input yields both or neither form.
-/
theorem C8_message_format_shape :
    ∀ (toks : List Tok),
      (beginsWithLitStr toks = true →
        ∃ s rest, toks = Tok.litStr s :: rest ∧
          MessageFormat.parse toks
            = Except.ok (MessageFormat.Lit s, rest)) ∧
      (beginsWithLitStr toks = false →
        ∀ m rest, MessageFormat.parse toks = Except.ok (m, rest) →
          ∃ pth body, m = MessageFormat.Format pth body) ∧
      (beginsWithLitStr toks = false →
        ∀ e, parseMacroCall toks = Except.error e →
          MessageFormat.parse toks = Except.error e) := by
  intro toks
  refine ⟨?_, ?_, ?_⟩
  · intro hb
    obtain ⟨s, rest, hshape⟩ := beginsWithLitStr_true_shape toks hb
    subst hshape
    exact ⟨s, rest, rfl, rfl⟩
  · intro hb m rest hok
    rw [MessageFormat_parse_not_lit toks hb] at hok
    cases hpm : parseMacroCall toks with
    | error e =>
        rw [hpm] at hok
        simp at hok
    | ok pr =>
        rw [hpm] at hok
        obtain ⟨⟨p, body⟩, r⟩ := pr
        simp at hok
        exact ⟨p, body, hok.1.symm⟩
  · intro hb e he
    rw [MessageFormat_parse_not_lit toks hb, he]

/--
C8 witness: the one-token stream holding the string literal hi begins
with a string literal and parses to the Lit form with that string.
-/
theorem C8_message_format_shape_witness :
    ∃ s rest, [Tok.litStr "hi"] = Tok.litStr s :: rest ∧
      MessageFormat.parse [Tok.litStr "hi"]
        = Except.ok (MessageFormat.Lit s, rest) :=
  (C8_message_format_shape [Tok.litStr "hi"]).1 rfl

/--
C9: the empty variant list is accepted by the parser (the token stream of
"type Foo" followed by an empty angle-bracket pair parses to a node model
with no variants), and the source() match emitted for it has no arms, so
no arm can ever return a cause: the emitted match yields no result for
any discriminant and any child.
-/
theorem C9_zero_variant_node :
    error_node_parse [Tok.kwType, Tok.ident "Foo", Tok.lt, Tok.gt]
      = Except.ok { is_pub := false, node_name := "Foo",
                    variants := [], msgPfx := none } ∧
    error_node_error_impl [] = [] ∧
    (∀ (idx : Nat) (c : ErrVal),
      runSourceMatch (error_node_error_impl []) idx c = none) :=
  ⟨rfl, rfl, fun _ _ => rfl⟩

/--
C10: for a node declared with at least one variant, every arm of the
emitted source() match returns Some; on any instance whose discriminant
is a declared variant, the match returns Some of the held child, so the
expect call in the emitted Display impl receives a present source and
never panics.
-/
theorem C10_source_always_some :
    ∀ (vs : List String), vs ≠ [] →
      (∀ arm ∈ error_node_error_impl vs, arm.returns_some = true) ∧
      (∀ (idx : Nat) (c : ErrVal), idx < vs.length →
        runSourceMatch (error_node_error_impl vs) idx c = some (some c)) ∧
      (∀ (name : String) (p : Option String) (idx : Nat) (c : ErrVal),
        idx < vs.length →
        (ErrVal.source (ErrVal.node name p vs idx c)).isSome = true) := by
  intro vs _
  refine ⟨?_, ?_, ?_⟩
  · intro arm harm
    simp only [error_node_error_impl, List.mem_map] at harm
    obtain ⟨a, _, rfl⟩ := harm
    rfl
  · intro idx c h
    rw [runSourceMatch_error_impl, if_pos h]
  · intro name p idx c h
    rw [source_node_valid name p vs idx c h]
    rfl

/--
C10 witness: for the one-variant list holding A, the match arm list is
nonempty with Some bodies and the match on discriminant zero returns the
held child.
-/
theorem C10_source_always_some_witness :
    runSourceMatch (error_node_error_impl ["A"]) 0 (ErrVal.leaf "x" [])
      = some (some (ErrVal.leaf "x" [])) :=
  (C10_source_always_some ["A"] (by simp)).2.1 0 (ErrVal.leaf "x" [])
    (by decide)
